import Mathlib

/-!
Verification of the LMCache TTL heuristics and multi-tier cache placement
logic.

The development shallowly embeds the Python modules
`src/caching_heuristics.py` and `src/tiered_caching.py`:

* Python floats are modelled as real numbers (`ℝ`) in the heuristics, and
  as rationals (`ℚ`) for timestamps in the backend model (timestamps are
  only compared and added, so a computable ordered field is faithful).
* A Python function that may raise is modelled with `Option`/`Except`;
  `none`/`.error` marks the raising executions.
* The environment flag `LMCACHE_DISABLE_OFFLOAD` is passed explicitly as a
  `Bool` argument holding its value at call time.
-/

/-- `clamp` from `caching_heuristics.py` line 14:
`return max(lo, min(hi, val))`. -/
noncomputable def clamp (val lo hi : ℝ) : ℝ := max lo (min hi val)

/-- Python `int(...)` applied to a float: truncation toward zero. -/
noncomputable def truncToInt (x : ℝ) : ℤ := if 0 ≤ x then ⌊x⌋ else ⌈x⌉

/-- The metadata dictionary fields read by `compute_ttl` and
`select_backend` (`perplexity`, `access_count`, `time_variance`).  The
fields are taken as present; `compute_ttl` reads no other key that can
influence its result. -/
structure Metadata where
  perplexity : ℝ
  access_count : ℤ
  time_variance : ℝ

/-- `compute_ttl` from `caching_heuristics.py` lines 18–53.

`access_influence = 1.0 + alpha * math.log1p(access_count)`,
`perplexity_factor = 1.0 + (max(0.0, perplexity - 10.0) / 100.0)`,
`gamma = 0.8`,
`ttl = base_ttl * access_influence * perplexity_factor * (1.0 - gamma * clamp(time_variance, 0.0, 1.0))`,
`return int(clamp(ttl, min_ttl, max_ttl))`.

CPython's `math.log1p(x)` raises `ValueError` (math domain error) for
`x <= -1`; since `access_count` is an `int`, the call raises exactly when
`access_count + 1 <= 0`.  That raising execution is modelled by `none`. -/
noncomputable def compute_ttl (md : Metadata) (base_ttl min_ttl max_ttl : ℤ)
    (alpha : ℝ) : Option ℤ :=
  if md.access_count + 1 ≤ 0 then none
  else some (truncToInt (clamp ((base_ttl : ℝ)
      * (1 + alpha * Real.log (1 + (md.access_count : ℝ)))
      * (1 + max 0 (md.perplexity - 10) / 100)
      * (1 - 0.8 * clamp md.time_variance 0 1)) (min_ttl : ℝ) (max_ttl : ℝ)))

/-- `select_backend` from `caching_heuristics.py` lines 56–89.
`offload_disabled` is the value of
`os.getenv("LMCACHE_DISABLE_OFFLOAD", "0") == "1"` at call time.  When the
flag is unset the code returns `"gpu"` when `compute_ttl(metadata) < 10`
(all keyword defaults: `base_ttl=3600`, `min_ttl=0`, `max_ttl=7*24*3600`,
`alpha=0.25`) and `"disk"` otherwise; a `ValueError` escaping from
`compute_ttl` propagates (modelled `none`).  The intermediate
`recency_score` computation reads `last_accessed`/`now` but does not
influence the returned value. -/
noncomputable def select_backend (offload_disabled : Bool) (md : Metadata) :
    Option String :=
  if offload_disabled then some "gpu"
  else
    match compute_ttl md 3600 0 (7 * 24 * 3600) 0.25 with
    | none => none
    | some ttl => some (if ttl < 10 then "gpu" else "disk")

/-! ### Arithmetic helper lemmas about truncation and clamping -/

lemma truncToInt_intCast (n : ℤ) : truncToInt ((n : ℝ)) = n := by
  unfold truncToInt
  split <;> simp

lemma le_truncToInt {lo : ℤ} {x : ℝ} (h : (lo : ℝ) ≤ x) : lo ≤ truncToInt x := by
  unfold truncToInt
  split
  · exact Int.le_floor.mpr h
  · exact_mod_cast le_trans h (Int.le_ceil x)

lemma truncToInt_le {hi : ℤ} {x : ℝ} (h : x ≤ (hi : ℝ)) : truncToInt x ≤ hi := by
  unfold truncToInt
  split
  · exact_mod_cast le_trans (Int.floor_le x) h
  · exact Int.ceil_le.mpr h

/-- Truncating after clamping to integer bounds agrees with clamping the
truncation: `int(clamp(x, lo, hi)) = max(lo, min(hi, int(x)))`. -/
lemma truncToInt_clamp_comm (x : ℝ) (lo hi : ℤ) (h : lo ≤ hi) :
    truncToInt (clamp x (lo : ℝ) (hi : ℝ)) = max lo (min hi (truncToInt x)) := by
  have hlh : (lo : ℝ) ≤ (hi : ℝ) := by exact_mod_cast h
  unfold clamp
  rcases le_total x (lo : ℝ) with hxlo | hlox
  · have hxhi : x ≤ (hi : ℝ) := le_trans hxlo hlh
    rw [min_eq_right hxhi, max_eq_left hxlo, truncToInt_intCast]
    have h1 : truncToInt x ≤ hi := truncToInt_le hxhi
    have h2 : truncToInt x ≤ lo := truncToInt_le hxlo
    rw [min_eq_right h1, max_eq_left h2]
  · rcases le_total (hi : ℝ) x with hhix | hxhi
    · rw [min_eq_left hhix, max_eq_right hlh, truncToInt_intCast]
      have h1 : hi ≤ truncToInt x := le_truncToInt hhix
      rw [min_eq_left h1, max_eq_right h]
    · rw [min_eq_right hxhi, max_eq_right hlox]
      have h1 : lo ≤ truncToInt x := le_truncToInt hlox
      have h2 : truncToInt x ≤ hi := truncToInt_le hxhi
      rw [min_eq_right h2, max_eq_right h1]

/-- Evaluation of `compute_ttl` at the neutral metadata record
(`perplexity = 10`, `access_count = 0`, `time_variance = 0`) with the
default keyword arguments: every factor is `1`, so the result is the
(clamped, truncated) base TTL `3600`. -/
lemma compute_ttl_neutral :
    compute_ttl ⟨10, 0, 0⟩ 3600 0 (7 * 24 * 3600) 0.25 = some 3600 := by
  unfold compute_ttl
  rw [if_neg (by norm_num)]
  have hclamp0 : clamp 0 0 1 = 0 := by
    unfold clamp
    rw [min_eq_right (by norm_num : (0:ℝ) ≤ 1)]
    simp
  have hexpr : ((3600 : ℤ) : ℝ)
      * (1 + 0.25 * Real.log (1 + (((⟨10, 0, 0⟩ : Metadata).access_count : ℤ) : ℝ)))
      * (1 + max 0 ((⟨10, 0, 0⟩ : Metadata).perplexity - 10) / 100)
      * (1 - 0.8 * clamp (⟨10, 0, 0⟩ : Metadata).time_variance 0 1)
      = ((3600 : ℤ) : ℝ) := by
    show ((3600 : ℤ) : ℝ) * (1 + 0.25 * Real.log (1 + ((0 : ℤ) : ℝ)))
        * (1 + max 0 ((10 : ℝ) - 10) / 100) * (1 - 0.8 * clamp 0 0 1)
      = ((3600 : ℤ) : ℝ)
    rw [hclamp0]
    norm_num [Real.log_one]
  rw [hexpr]
  unfold clamp
  rw [min_eq_right (by norm_num : ((3600 : ℤ) : ℝ) ≤ ((7 * 24 * 3600 : ℤ) : ℝ)),
    max_eq_right (by norm_num : ((0 : ℤ) : ℝ) ≤ ((3600 : ℤ) : ℝ)),
    truncToInt_intCast]

/-! ### C1 – C3: the heuristic functions -/

/-- C1: for every metadata record with `access_count ≥ 0` (and a
well-formed bound pair `min_ttl ≤ max_ttl`), `compute_ttl` equals
`base_ttl * (1 + alpha*ln(1+a)) * (1 + max(0,p-10)/100) * (1 - 0.8*clamp(v,0,1))`
truncated to an integer and clamped to `[min_ttl, max_ttl]`; and in
particular, for `a = 0`, `p = 10`, `v = 0` (with `base_ttl` inside the
clamping interval, as with the default arguments) it returns exactly
`base_ttl`. -/
theorem compute_ttl_formula (md : Metadata) (b lo hi : ℤ) (α : ℝ)
    (ha : 0 ≤ md.access_count) (hlh : lo ≤ hi) :
    compute_ttl md b lo hi α
      = some (max lo (min hi (truncToInt ((b : ℝ)
          * (1 + α * Real.log (1 + (md.access_count : ℝ)))
          * (1 + max 0 (md.perplexity - 10) / 100)
          * (1 - 0.8 * clamp md.time_variance 0 1)))))
    ∧ (md.access_count = 0 → md.perplexity = 10 → md.time_variance = 0 →
        lo ≤ b → b ≤ hi → compute_ttl md b lo hi α = some b) := by
  constructor
  · unfold compute_ttl
    rw [if_neg (by omega), truncToInt_clamp_comm _ _ _ hlh]
  · intro h0 hp hv hlb hbh
    unfold compute_ttl
    rw [if_neg (by omega)]
    congr 1
    have hclamp0 : clamp (0 : ℝ) 0 1 = 0 := by
      unfold clamp
      rw [min_eq_right (by norm_num : (0:ℝ) ≤ 1)]
      simp
    have hexpr : (b : ℝ)
        * (1 + α * Real.log (1 + (md.access_count : ℝ)))
        * (1 + max 0 (md.perplexity - 10) / 100)
        * (1 - 0.8 * clamp md.time_variance 0 1) = (b : ℝ) := by
      rw [h0, hp, hv, hclamp0]
      norm_num [Real.log_one]
    rw [hexpr]
    unfold clamp
    rw [min_eq_right (by exact_mod_cast hbh), max_eq_right (by exact_mod_cast hlb),
      truncToInt_intCast]

/-- Witness for `compute_ttl_formula`: at the neutral record
`⟨10, 0, 0⟩` with the default arguments, `compute_ttl` returns exactly the
base TTL `3600`. -/
theorem compute_ttl_formula_witness :
    (0 : ℤ) ≤ (Metadata.mk 10 0 0).access_count ∧
      compute_ttl ⟨10, 0, 0⟩ 3600 0 (7 * 24 * 3600) 0.25 = some 3600 :=
  ⟨by norm_num,
    (compute_ttl_formula ⟨10, 0, 0⟩ 3600 0 (7 * 24 * 3600) 0.25
        (by norm_num) (by norm_num)).2
      rfl rfl rfl (by norm_num) (by norm_num)⟩

/-- C2, counterexample: the claim asserts `compute_ttl` never raises, even
for a negative `access_count`.  But at `access_count = -1` the code calls
`math.log1p(0 ... )`, i.e. `math.log1p(-1)`, which raises
`ValueError: math domain error` in CPython — modelled here by the `none`
result. -/
theorem compute_ttl_neg_access_raises :
    compute_ttl ⟨1, -1, 0⟩ 3600 0 (7 * 24 * 3600) 0.25 = none := by
  unfold compute_ttl
  rw [if_pos]
  norm_num

/-- C2, amended: for every metadata record with `access_count ≥ 0`
(the executions on which `math.log1p` does not raise) and bounds with
`min_ttl ≤ max_ttl`, `compute_ttl` returns normally and its result lies
within `[min_ttl, max_ttl]`, for arbitrary (also extreme or negative)
`perplexity` and `time_variance`. -/
theorem compute_ttl_in_range (md : Metadata) (b lo hi : ℤ) (α : ℝ)
    (ha : 0 ≤ md.access_count) (hlh : lo ≤ hi) :
    ∃ t, compute_ttl md b lo hi α = some t ∧ lo ≤ t ∧ t ≤ hi := by
  unfold compute_ttl
  rw [if_neg (by omega)]
  refine ⟨_, rfl, ?_, ?_⟩
  · exact le_truncToInt (le_max_left _ _)
  · refine truncToInt_le (max_le (by exact_mod_cast hlh) (min_le_left _ _))

/-- Witness for `compute_ttl_in_range`: extreme metadata (negative
perplexity, out-of-range variance) with narrow bounds `[10, 20]` still
yields a TTL inside the bounds. -/
theorem compute_ttl_in_range_witness :
    (0 : ℤ) ≤ (Metadata.mk (-50) 3 7).access_count ∧
      ∃ t, compute_ttl ⟨-50, 3, 7⟩ 100 10 20 0.25 = some t ∧ 10 ≤ t ∧ t ≤ 20 :=
  ⟨by norm_num,
    compute_ttl_in_range ⟨-50, 3, 7⟩ 100 10 20 0.25 (by norm_num) (by norm_num)⟩

/-- C3: `select_backend` returns `"gpu"` whenever the offload-disable flag
is set at call time, regardless of metadata; with the flag unset it
returns `"gpu"` exactly when `compute_ttl(metadata)` (with its default
arguments) is `< 10` and `"disk"` otherwise; and it never returns
`"remote"`. -/
theorem select_backend_spec (md : Metadata) (flag : Bool) :
    (flag = true → select_backend flag md = some "gpu")
    ∧ (flag = false → ∀ t, compute_ttl md 3600 0 (7 * 24 * 3600) 0.25 = some t →
        select_backend flag md = some (if t < 10 then "gpu" else "disk"))
    ∧ select_backend flag md ≠ some "remote" := by
  refine ⟨?_, ?_, ?_⟩
  · intro hf
    simp [select_backend, hf]
  · intro hf t ht
    have h77 : (7 * 24 * 3600 : ℤ) = 604800 := by norm_num
    rw [h77] at ht
    simp [select_backend, hf, ht]
  · cases flag with
    | true => simp [select_backend]
    | false =>
      unfold select_backend
      simp only [Bool.false_eq_true, if_false]
      cases h : compute_ttl md 3600 0 (7 * 24 * 3600) 0.25 with
      | none => simp
      | some t =>
        by_cases h10 : t < 10 <;> simp [h10]

/-- Witness for `select_backend_spec`: with the flag set the neutral
record maps to `"gpu"`; with the flag unset it maps to `"disk"` (its
default-argument TTL is `3600`, not `< 10`). -/
theorem select_backend_spec_witness :
    select_backend true ⟨10, 0, 0⟩ = some "gpu"
    ∧ select_backend false ⟨10, 0, 0⟩ = some "disk" := by
  refine ⟨(select_backend_spec ⟨10, 0, 0⟩ true).1 rfl, ?_⟩
  have h := (select_backend_spec ⟨10, 0, 0⟩ false).2.1 rfl 3600 compute_ttl_neutral
  norm_num at h
  exact h

/-! ### The in-memory backend (`tiered_caching.py` lines 28–47)

Timestamps and TTLs are modelled as rationals: the code only adds and
compares them, so `ℚ` is a faithful, computable model of the float clock.
`time.time()` is passed explicitly as a `now` argument. -/

/-- `InMemoryBackend`: `self.store = {}` mapping `key -> (value, expire_time)`,
where `expire_time` is `None` for entries without expiry. -/
structure InMemoryBackend (V : Type) where
  store : String → Option (V × Option ℚ)

/-- The empty store built by the constructor. -/
def InMemoryBackend.empty (V : Type) : InMemoryBackend V := ⟨fun _ => none⟩

/-- `InMemoryBackend.set`:
`expire = time.time() + ttl if ttl else None; self.store[key] = (value, expire)`.
Note the Python truthiness test: `ttl = 0` (or `ttl = None`) stores `None`
as the expiry. -/
def InMemoryBackend.set (b : InMemoryBackend V) (key : String) (value : V)
    (ttl : Option ℚ) (now : ℚ) : InMemoryBackend V :=
  let expire : Option ℚ :=
    match ttl with
    | some t => if t ≠ 0 then some (now + t) else none
    | none => none
  ⟨fun k => if k = key then some (value, expire) else b.store k⟩

/-- `InMemoryBackend.delete`: `self.store.pop(key, None)`. -/
def InMemoryBackend.delete (b : InMemoryBackend V) (key : String) :
    InMemoryBackend V :=
  ⟨fun k => if k = key then none else b.store k⟩

/-- `InMemoryBackend.get`: returns the stored value when the key is
present and `expire is None or expire > time.time()`; otherwise deletes a
stale entry and returns `None`.  The returned pair is `(result, state of
the backend after the call)`. -/
def InMemoryBackend.get (b : InMemoryBackend V) (key : String) (now : ℚ) :
    Option V × InMemoryBackend V :=
  match b.store key with
  | none => (none, b)
  | some (val, none) => (some val, b)
  | some (val, some expire) =>
      if now < expire then (some val, b) else (none, b.delete key)

/-- A hit leaves the backend unchanged: if `get` returns a value, the
returned state is the input state. -/
lemma InMemoryBackend.get_hit {b : InMemoryBackend V} {key : String} {now : ℚ}
    {v : V} (h : (b.get key now).1 = some v) : b.get key now = (some v, b) := by
  unfold InMemoryBackend.get at h ⊢
  rcases hs : b.store key with _ | ⟨val, _ | expire⟩
  · simp_all
  · simp_all
  · by_cases hne : now < expire
    · simp_all
    · simp_all

/-! ### C6: backend set/get/expiry semantics -/

/-- C6, counterexample: the claim says `set(key, value, ttl)` with a TTL
given stores expiry `now + ttl`.  With `ttl = 0` the truthiness test
`if ttl` is false, so the code stores *no* expiry: the entry set at time
`5` with TTL `0` is still returned at time `100`, although the claimed
expiry `5 + 0` passed long ago. -/
theorem inMemoryBackend_set_zero_ttl_no_expiry :
    ((InMemoryBackend.empty ℤ).set "k" 7 (some 0) 5).store "k" = some (7, none)
    ∧ (some ((7 : ℤ), (none : Option ℚ)) ≠ some ((7 : ℤ), some ((5 : ℚ) + 0)))
    ∧ (((InMemoryBackend.empty ℤ).set "k" 7 (some 0) 5).get "k" 100).1 = some 7 := by
  refine ⟨?_, by simp, ?_⟩ <;>
    simp [InMemoryBackend.set, InMemoryBackend.get, InMemoryBackend.empty]

/-- C6, amended: `set` with a *nonzero* TTL stores expiry `now + ttl`;
with the TTL omitted (`None`) — or equal to `0`, which Python truthiness
conflates with `None` — it stores no expiry.  `get` returns the stored
value exactly when it is present and its expiry is absent or strictly in
the future; on a stale entry it deletes the entry and reports absence, so
a value is never returned once its expiry has passed. -/
theorem inMemoryBackend_spec (V : Type) (b : InMemoryBackend V) (k : String)
    (v : V) (now : ℚ) :
    (∀ t : ℚ, t ≠ 0 → ((b.set k v (some t) now).store) k = some (v, some (now + t)))
    ∧ ((b.set k v none now).store k = some (v, none))
    ∧ ((b.set k v (some 0) now).store k = some (v, none))
    ∧ (b.store k = none → b.get k now = (none, b))
    ∧ (∀ w, b.store k = some (w, none) → b.get k now = (some w, b))
    ∧ (∀ w e, b.store k = some (w, some e) → now < e → b.get k now = (some w, b))
    ∧ (∀ w e, b.store k = some (w, some e) → e ≤ now →
        (b.get k now).1 = none ∧ ((b.get k now).2).store k = none) := by
  refine ⟨?_, ?_, ?_, ?_, ?_, ?_, ?_⟩
  · intro t ht
    simp [InMemoryBackend.set, ht]
  · simp [InMemoryBackend.set]
  · simp [InMemoryBackend.set]
  · intro h
    simp [InMemoryBackend.get, h]
  · intro w h
    simp [InMemoryBackend.get, h]
  · intro w e h hlt
    simp [InMemoryBackend.get, h, hlt]
  · intro w e h hle
    have hnlt : ¬ now < e := not_lt.mpr hle
    constructor <;> simp [InMemoryBackend.get, InMemoryBackend.delete, h, hnlt]

/-- Witness for `inMemoryBackend_spec`: an entry set at time `0` with TTL
`10` carries expiry `10`; read back at time `20` it is gone and the stale
entry has been deleted from the store. -/
theorem inMemoryBackend_spec_witness :
    ((10 : ℚ) ≠ 0
      ∧ ((InMemoryBackend.empty ℤ).set "k" 3 (some 10) 0).store "k" = some (3, some (0 + 10)))
    ∧ ((((InMemoryBackend.empty ℤ).set "k" 3 (some 10) 0).get "k" 20).1 = none
      ∧ ((((InMemoryBackend.empty ℤ).set "k" 3 (some 10) 0).get "k" 20).2).store "k" = none) := by
  have h1 := (inMemoryBackend_spec ℤ (InMemoryBackend.empty ℤ) "k" 3 0).1 10 (by norm_num)
  have hstore : ((InMemoryBackend.empty ℤ).set "k" 3 (some 10) 0).store "k"
      = some (3, some (0 + 10)) := h1
  have h2 := (inMemoryBackend_spec ℤ ((InMemoryBackend.empty ℤ).set "k" 3 (some 10) 0)
      "k" 3 20).2.2.2.2.2.2 3 (0 + 10) hstore (by norm_num)
  exact ⟨⟨by norm_num, h1⟩, h2⟩

/-! ### C4: the multi-tier get-with-promotion -/

/-- Modelled from the spec: the repository defines the tier backends and a
`MultiTierCache` shell (`tiered_caching.py` lines 131–152), but no code
under `src/` implements the multi-tier probe/promote `get` described in
spec §4.3; only the spec's words define it.  Following §4.3: probe the
backends in order 0..N-1, first hit short-circuits; on a hit at index
`i > 0` the value is re-written into every backend at index `< i` using
that backend's configured default TTL; on a total miss nothing is written.
The tiers are `(backend, default TTL)` pairs; the updated tier list is
returned alongside the result. -/
def multiTierGet {V : Type} :
    List (InMemoryBackend V × ℚ) → String → ℚ → Option V × List (InMemoryBackend V × ℚ)
  | [], _, _ => (none, [])
  | (b, t) :: rest, key, now =>
    match b.get key now with
    | (some v, b1) => (some v, (b1, t) :: rest)
    | (none, b1) =>
      match multiTierGet rest key now with
      | (some v, rest1) => (some v, (b1.set key v (some t) now, t) :: rest1)
      | (none, rest1) => (none, (b1, t) :: rest1)

/-- `FirstHit key now v tiers i`: probing `tiers` in order at time `now`,
the first backend whose `get` hits is the one at index `i`, and it holds
`v`. -/
inductive FirstHit {V : Type} (key : String) (now : ℚ) (v : V) :
    List (InMemoryBackend V × ℚ) → ℕ → Prop
  | here {b : InMemoryBackend V} {t : ℚ} {rest} :
      (b.get key now).1 = some v → FirstHit key now v ((b, t) :: rest) 0
  | there {b : InMemoryBackend V} {t : ℚ} {rest : List (InMemoryBackend V × ℚ)} {i : ℕ} :
      (b.get key now).1 = none → FirstHit key now v rest i →
      FirstHit key now v ((b, t) :: rest) (i + 1)

/-- C4: with positive per-tier TTLs, if the first hit while probing in
order is at index `i` with value `v`, then `multiTierGet` returns `v`;
every backend at index `j < i` is re-written with `v` and expiry
`now + ttl_j` (its own configured TTL, which is preserved); on a hit at
index 0 the tier list is returned unchanged (no promotion write); and an
immediately subsequent `get` at the same time hits index 0. -/
theorem multiTierGet_promotes {V : Type} (tiers : List (InMemoryBackend V × ℚ))
    (key : String) (now : ℚ) (i : ℕ) (v : V)
    (hfirst : FirstHit key now v tiers i)
    (hpos : ∀ p ∈ tiers, (0 : ℚ) < p.2) :
    (multiTierGet tiers key now).1 = some v
    ∧ (multiTierGet tiers key now).2.length = tiers.length
    ∧ (∀ j, j < i → ∃ bj tj bj2,
        tiers.get? j = some (bj, tj)
        ∧ (multiTierGet tiers key now).2.get? j = some (bj2, tj)
        ∧ bj2.store key = some (v, some (now + tj)))
    ∧ (i = 0 → (multiTierGet tiers key now).2 = tiers)
    ∧ (∃ b0 t0 rest, (multiTierGet tiers key now).2 = (b0, t0) :: rest
        ∧ (b0.get key now).1 = some v) := by
  revert hpos
  induction hfirst with
  | @here b t rest h =>
    intro _
    have hbt : b.get key now = (some v, b) := InMemoryBackend.get_hit h
    refine ⟨?_, ?_, ?_, ?_, ⟨b, t, rest, ?_, h⟩⟩ <;>
      simp [multiTierGet, hbt]
  | @there b t rest i hmiss hfirst ih =>
    intro hpos
    have hpos_rest : ∀ p ∈ rest, (0 : ℚ) < p.2 := fun p hp =>
      hpos p (List.mem_cons_of_mem _ hp)
    have ht : (0 : ℚ) < t := hpos (b, t) (List.mem_cons_self _ _)
    obtain ⟨ih1, ih2, ih3, _, _⟩ := ih hpos_rest
    rcases hbg : b.get key now with ⟨o, b1⟩
    rw [hbg] at hmiss
    simp only at hmiss
    subst hmiss
    rcases hmg : multiTierGet rest key now with ⟨ov, rest1⟩
    rw [hmg] at ih1 ih2 ih3
    simp only at ih1 ih2 ih3
    subst ih1
    have hres : multiTierGet ((b, t) :: rest) key now
        = (some v, (b1.set key v (some t) now, t) :: rest1) := by
      simp [multiTierGet, hbg, hmg]
    rw [hres]
    have hsetstore : (b1.set key v (some t) now).store key = some (v, some (now + t)) := by
      simp [InMemoryBackend.set, ne_of_gt ht]
    refine ⟨rfl, by simp [ih2], ?_, by omega,
      ⟨b1.set key v (some t) now, t, rest1, rfl, ?_⟩⟩
    · intro j hj
      cases j with
      | zero => exact ⟨b, t, b1.set key v (some t) now, by simp, by simp, hsetstore⟩
      | succ j0 =>
        obtain ⟨bj, tj, bj2, h1, h2, h3⟩ := ih3 j0 (by omega)
        exact ⟨bj, tj, bj2, by simpa using h1, by simpa using h2, h3⟩
    · simp [InMemoryBackend.get, hsetstore, ht]

/-- Tier A of the spec's promotion scenario: entry set at time `0` with
TTL `1`, so it has lapsed by time `2`. -/
def tierA : InMemoryBackend ℤ := (InMemoryBackend.empty ℤ).set "k" 7 (some 1) 0

/-- Tier B of the spec's promotion scenario: entry set at time `0` with
TTL `100`, still live at time `2`. -/
def tierB : InMemoryBackend ℤ := (InMemoryBackend.empty ℤ).set "k" 7 (some 100) 0

/-- Witness for `multiTierGet_promotes`, the spec's promotion scenario:
tiers `[A(ttl=1), B(ttl=100)]`, both set at time `0`, read at time `2`.
`get` misses A, hits B, returns the value, re-populates A with A's own
TTL, and an immediately subsequent `get` hits index 0. -/
theorem multiTierGet_promotes_witness :
    (multiTierGet [(tierA, 1), (tierB, 100)] "k" 2).1 = some 7
    ∧ (∃ bj tj bj2, [(tierA, 1), (tierB, 100)].get? 0 = some (bj, tj)
        ∧ (multiTierGet [(tierA, 1), (tierB, 100)] "k" 2).2.get? 0 = some (bj2, tj)
        ∧ bj2.store "k" = some (7, some (2 + tj)))
    ∧ (∃ b0 t0 rest, (multiTierGet [(tierA, 1), (tierB, 100)] "k" 2).2 = (b0, t0) :: rest
        ∧ (b0.get "k" 2).1 = some 7) := by
  have hmissA : (tierA.get "k" 2).1 = none := by
    simp [tierA, InMemoryBackend.empty, InMemoryBackend.set, InMemoryBackend.get]
  have hhitB : (tierB.get "k" 2).1 = some 7 := by
    simp [tierB, InMemoryBackend.empty, InMemoryBackend.set, InMemoryBackend.get]
    norm_num
  have hfirst : FirstHit "k" 2 (7 : ℤ) [(tierA, 1), (tierB, 100)] 1 :=
    FirstHit.there hmissA (FirstHit.here hhitB)
  have h := multiTierGet_promotes [(tierA, 1), (tierB, 100)] "k" 2 1 7 hfirst
    (by
      rintro p hp
      simp only [List.mem_cons, List.mem_singleton] at hp
      rcases hp with rfl | rfl | hp
      · norm_num
      · norm_num
      · simp at hp)
  exact ⟨h.1, h.2.2.1 0 (by norm_num), h.2.2.2.2⟩

/-! ### The placement reconciler (`tiered_caching.py` lines 188–223)

`_apply_heuristics_and_move` performs network calls through the
controller client.  One invocation calls `tokenize` once, `lookup` once
and `move` at most once, so the controller's behavior during the
invocation is modelled as one response per operation; each response is an
`Except`, with `.error` marking an exception raised by the call (server
unreachable, HTTP error, ...).  The move-result payload type `R` is kept
abstract. -/

/-- Exceptions that can arise inside the reconciler's `try` block. -/
inductive CtrlErr where
  | network (msg : String)
  | indexOutOfRange
  | mathDomain

/-- The JSON dictionary returned by a successful controller `lookup`:
the truthiness of the `"found"` field, and the
`"lmcache_default_instance"` field — absent (`none`) or a list whose
entries may be JSON `null` (`none`). -/
structure LookupResponse where
  found : Bool
  defaultInstance : Option (List (Option String))

/-- The controller's behavior during one reconciliation invocation. -/
structure ControllerBehavior (R : Type) where
  tokenizeResp : Except CtrlErr (List ℤ)
  lookupResp : Except CtrlErr LookupResponse
  moveResp : Except CtrlErr R

/-- A network call issued to the controller. -/
inductive ControllerCall where
  | tokenize
  | lookup
  | move (old new : String)
deriving DecidableEq

/-- Observable outcome of one `_apply_heuristics_and_move` invocation:
the controller calls issued (in order), the Python return value (the
move result on a completed move, else `None`), and the exception caught
by the surrounding `except` block, if any.  The invocation itself always
returns normally: an exception shows up in `caught`, never propagates. -/
structure RecRun (R : Type) where
  calls : List ControllerCall
  ret : Option R
  caught : Option CtrlErr

/-- `current_layout.get("lmcache_default_instance", [None])[0]`:
an absent field defaults to `[None]`, whose first element is `None`;
indexing an empty list raises `IndexError`. -/
def extractCurrent (l : LookupResponse) : Except CtrlErr (Option String) :=
  match l.defaultInstance with
  | none => .ok none
  | some [] => .error .indexOutOfRange
  | some (x :: _) => .ok x

/-- `MultiTierCache._apply_heuristics_and_move`, lines 188–223.  Inside
`try`: tokenize the prompt, look up the current layout, return early when
`found` is falsy, extract `current_backend`, compute `ttl` (this is where
a `ValueError` from `compute_ttl` surfaces — before `select_backend`),
compute `preferred_backend`, and issue one `move` exactly when
`current_backend and preferred_backend and current_backend != preferred_backend`
(Python truthiness: an empty string is falsy).  Any exception is caught
by the `except` clause, which logs and falls through, returning `None`. -/
noncomputable def applyHeuristicsAndMove {R : Type} (cb : ControllerBehavior R)
    (offload_disabled : Bool) (md : Metadata) : RecRun R :=
  match cb.tokenizeResp with
  | .error e => ⟨[.tokenize], none, some e⟩
  | .ok _ =>
    match cb.lookupResp with
    | .error e => ⟨[.tokenize, .lookup], none, some e⟩
    | .ok layout =>
      if layout.found = false then ⟨[.tokenize, .lookup], none, none⟩
      else
        match extractCurrent layout with
        | .error e => ⟨[.tokenize, .lookup], none, some e⟩
        | .ok currentOpt =>
          match compute_ttl md 3600 0 (7 * 24 * 3600) 0.25 with
          | none => ⟨[.tokenize, .lookup], none, some .mathDomain⟩
          | some _ =>
            match select_backend offload_disabled md with
            | none => ⟨[.tokenize, .lookup], none, some .mathDomain⟩
            | some preferred =>
              match currentOpt with
              | none => ⟨[.tokenize, .lookup], none, none⟩
              | some current =>
                if current ≠ "" ∧ preferred ≠ "" ∧ current ≠ preferred then
                  match cb.moveResp with
                  | .error e =>
                      ⟨[.tokenize, .lookup, .move current preferred], none, some e⟩
                  | .ok r =>
                      ⟨[.tokenize, .lookup, .move current preferred], some r, none⟩
                else ⟨[.tokenize, .lookup], none, none⟩

/-- A backend name returned by `select_backend` is never the empty
string. -/
lemma select_backend_not_empty {flag : Bool} {md : Metadata} {p : String}
    (h : select_backend flag md = some p) : p ≠ "" := by
  cases flag with
  | true =>
    simp [select_backend] at h
    subst h
    decide
  | false =>
    unfold select_backend at h
    rw [if_neg (by simp)] at h
    cases hc : compute_ttl md 3600 0 (7 * 24 * 3600) 0.25 with
    | none =>
      rw [hc] at h
      exact absurd h (by simp)
    | some ttl =>
      rw [hc] at h
      simp only [Option.some.injEq] at h
      subst h
      by_cases h10 : ttl < 10
      · rw [if_pos h10]
        decide
      · rw [if_neg h10]
        decide

/-- Evaluation of `select_backend` at the neutral record with the flag
unset: the default-argument TTL is `3600`, not below the hot threshold
`10`, so the preferred backend is `"disk"`. -/
lemma select_backend_neutral : select_backend false ⟨10, 0, 0⟩ = some "disk" := by
  unfold select_backend
  rw [if_neg (by simp), compute_ttl_neutral]
  norm_num

/-! ### C8: lookup not found means no move and a silent return -/

/-- C8: whenever the controller lookup succeeds but reports `found`
falsy, the reconciler issues no move call (only tokenize and lookup are
on the wire) and the invocation returns `None` silently, with no
exception even caught internally. -/
theorem reconcile_not_found_no_move {R : Type} (cb : ControllerBehavior R)
    (flag : Bool) (md : Metadata) (toks : List ℤ) (layout : LookupResponse)
    (h1 : cb.tokenizeResp = .ok toks) (h2 : cb.lookupResp = .ok layout)
    (h3 : layout.found = false) :
    applyHeuristicsAndMove cb flag md
      = ⟨[.tokenize, .lookup], none, none⟩ := by
  unfold applyHeuristicsAndMove
  rw [h1, h2]
  simp [h3]

/-- The controller behavior of a not-found lookup. -/
def cbNotFound : ControllerBehavior ℕ := ⟨.ok [1], .ok ⟨false, none⟩, .ok 0⟩

/-- Witness for `reconcile_not_found_no_move` at a concrete behavior. -/
theorem reconcile_not_found_no_move_witness :
    applyHeuristicsAndMove cbNotFound false ⟨10, 0, 0⟩
      = ⟨[.tokenize, .lookup], none, none⟩ :=
  reconcile_not_found_no_move cbNotFound false ⟨10, 0, 0⟩ [1] ⟨false, none⟩
    rfl rfl rfl

/-! ### C7: found with a current tier — move exactly on divergence -/

/-- C7: when tokenize and lookup succeed, the entry is reported found with
a usable current tier `cur`, and the heuristics evaluate (TTL defined,
preferred backend `p`): if `cur ≠ p` the reconciler issues exactly one
move request — the full call trace is tokenize, lookup, one move — and
returns the move's result when the move succeeds; if `cur = p` it issues
no network call beyond tokenize and lookup. -/
theorem reconcile_move_iff_differs {R : Type} (cb : ControllerBehavior R)
    (flag : Bool) (md : Metadata) (toks : List ℤ) (layout : LookupResponse)
    (cur p : String) (t : ℤ)
    (h1 : cb.tokenizeResp = .ok toks)
    (h2 : cb.lookupResp = .ok layout)
    (h3 : layout.found = true)
    (h4 : extractCurrent layout = .ok (some cur))
    (h5 : cur ≠ "")
    (h6 : compute_ttl md 3600 0 (7 * 24 * 3600) 0.25 = some t)
    (h7 : select_backend flag md = some p) :
    (cur ≠ p →
      (applyHeuristicsAndMove cb flag md).calls
          = [.tokenize, .lookup, .move cur p]
      ∧ ∀ r, cb.moveResp = .ok r → (applyHeuristicsAndMove cb flag md).ret = some r)
    ∧ (cur = p →
      applyHeuristicsAndMove cb flag md = ⟨[.tokenize, .lookup], none, none⟩) := by
  have hp : p ≠ "" := select_backend_not_empty h7
  unfold applyHeuristicsAndMove
  rw [h1, h2]
  simp only [h3, Bool.true_eq_false, if_false]
  simp only [h4, h6, h7]
  constructor
  · intro hne
    rw [if_pos ⟨h5, hp, hne⟩]
    cases hm : cb.moveResp with
    | error e =>
      refine ⟨rfl, fun r hr => ?_⟩
      cases hr
    | ok r0 =>
      refine ⟨rfl, fun r hr => ?_⟩
      injection hr with hrr
      rw [hrr]
  · intro heq
    rw [if_neg (by simp [heq])]

/-- The controller behavior used to exercise a divergence: lookup reports
the entry on `"gpu"`, move succeeds with payload `5`. -/
def cbOnGpu : ControllerBehavior ℕ := ⟨.ok [1], .ok ⟨true, some [some "gpu"]⟩, .ok 5⟩

/-- Witness for `reconcile_move_iff_differs`: with the flag unset the
neutral record prefers `"disk"`; the entry is on `"gpu"`, so exactly one
move `gpu → disk` is issued and its result `5` is returned. -/
theorem reconcile_move_iff_differs_witness :
    (applyHeuristicsAndMove cbOnGpu false ⟨10, 0, 0⟩).calls
      = [.tokenize, .lookup, .move "gpu" "disk"]
    ∧ (applyHeuristicsAndMove cbOnGpu false ⟨10, 0, 0⟩).ret = some 5 := by
  have h := (reconcile_move_iff_differs cbOnGpu false ⟨10, 0, 0⟩ [1]
    ⟨true, some [some "gpu"]⟩ "gpu" "disk" 3600 rfl rfl rfl rfl (by decide)
    compute_ttl_neutral select_backend_neutral).1 (by decide)
  exact ⟨h.1, h.2 5 rfl⟩

/-! ### C5: the offload-disable override and moves -/

/-- The controller behavior with the entry reported on `"disk"` and a
successful move. -/
def cbOnDisk : ControllerBehavior ℕ := ⟨.ok [1], .ok ⟨true, some [some "disk"]⟩, .ok 0⟩

/-- C5, counterexample: the claim says that with the offload-disable
override active no move call is issued.  But the override only pins
`select_backend` to `"gpu"`; `_apply_heuristics_and_move` still compares
tiers and here — flag set, entry on `"disk"` — it *does* issue a move
(`disk → gpu`). -/
theorem reconcile_override_still_moves :
    ControllerCall.move "disk" "gpu"
      ∈ (applyHeuristicsAndMove cbOnDisk true ⟨10, 0, 0⟩).calls := by
  have hsel : select_backend true (⟨10, 0, 0⟩ : Metadata) = some "gpu" := by
    simp [select_backend]
  simp only [applyHeuristicsAndMove, cbOnDisk, extractCurrent, compute_ttl_neutral, hsel,
    Bool.true_eq_false, if_false]
  rw [if_pos (by decide :
    ("disk" : String) ≠ "" ∧ ("gpu" : String) ≠ "" ∧ ("disk" : String) ≠ "gpu")]
  decide

/-- C5, amended: with the override active the preferred tier is pinned to
`"gpu"`, so every move the reconciler issues targets `"gpu"`; a move is
issued exactly when the controller-reported current tier is truthy and
differs from `"gpu"`.  The override therefore never causes a move *away*
from the hot tier, but it does not suppress moves onto it. -/
theorem reconcile_override_moves_only_to_gpu {R : Type} (cb : ControllerBehavior R)
    (md : Metadata) (toks : List ℤ) (layout : LookupResponse)
    (curOpt : Option String) (t : ℤ)
    (h1 : cb.tokenizeResp = .ok toks)
    (h2 : cb.lookupResp = .ok layout)
    (h3 : layout.found = true)
    (h4 : extractCurrent layout = .ok curOpt)
    (h6 : compute_ttl md 3600 0 (7 * 24 * 3600) 0.25 = some t) :
    (∀ o n, ControllerCall.move o n ∈ (applyHeuristicsAndMove cb true md).calls →
        n = "gpu")
    ∧ ((∃ o n, ControllerCall.move o n ∈ (applyHeuristicsAndMove cb true md).calls)
        ↔ ∃ c, curOpt = some c ∧ c ≠ "" ∧ c ≠ "gpu") := by
  have hsel : select_backend true md = some "gpu" := by simp [select_backend]
  cases curOpt with
  | none =>
    unfold applyHeuristicsAndMove
    rw [h1, h2]
    simp only [h3, Bool.true_eq_false, if_false]
    simp only [h4, h6, hsel]
    refine ⟨fun o n hmem => ?_, ⟨fun hex => ?_, fun hex => ?_⟩⟩
    · simp at hmem
    · obtain ⟨o, n, hmem⟩ := hex
      simp at hmem
    · obtain ⟨c, hc, _, _⟩ := hex
      cases hc
  | some c =>
    unfold applyHeuristicsAndMove
    rw [h1, h2]
    simp only [h3, Bool.true_eq_false, if_false]
    simp only [h4, h6, hsel]
    by_cases hcond : c ≠ "" ∧ ("gpu" : String) ≠ "" ∧ c ≠ "gpu"
    · rw [if_pos hcond]
      cases cb.moveResp <;>
        exact ⟨fun o n hmem => by
            simp [List.mem_cons] at hmem
            exact hmem.2,
          ⟨fun _ => ⟨c, rfl, hcond.1, hcond.2.2⟩,
            fun _ => ⟨c, "gpu", by simp [List.mem_cons]⟩⟩⟩
    · rw [if_neg hcond]
      refine ⟨fun o n hmem => ?_, ⟨fun hex => ?_, fun hex => ?_⟩⟩
      · simp at hmem
      · obtain ⟨o, n, hmem⟩ := hex
        simp at hmem
      · obtain ⟨c2, hc2, hne, hng⟩ := hex
        injection hc2 with hcc
        subst hcc
        exact absurd ⟨hne, by decide, hng⟩ hcond

/-- Witness for `reconcile_override_moves_only_to_gpu`: flag set, entry
on `"disk"`: a move is issued, and every issued move targets `"gpu"`. -/
theorem reconcile_override_moves_only_to_gpu_witness :
    (∀ o n, ControllerCall.move o n
        ∈ (applyHeuristicsAndMove cbOnDisk true ⟨10, 0, 0⟩).calls → n = "gpu")
    ∧ (∃ o n, ControllerCall.move o n
        ∈ (applyHeuristicsAndMove cbOnDisk true ⟨10, 0, 0⟩).calls) := by
  have h := reconcile_override_moves_only_to_gpu cbOnDisk ⟨10, 0, 0⟩ [1]
    ⟨true, some [some "disk"]⟩ (some "disk") 3600 rfl rfl rfl rfl compute_ttl_neutral
  exact ⟨h.1, h.2.mpr ⟨"disk", rfl, by decide, by decide⟩⟩

/-! ### C9: controller failures are caught inside the reconciler -/

/-- C9: every failure of a controller operation is caught by the
reconciler's `except` clause — the invocation still produces a normal
`RecRun` whose return value is `None` and whose `caught` field records
the exception; nothing propagates to the caller.
The conjuncts cover a failing `tokenize`, a failing `lookup`, a failing
`move` (the return value is still `None`, and either that very error is
the one caught or no move was attempted at all), and a malformed lookup
response (`"lmcache_default_instance"` present but empty, whose
`IndexError` is caught). -/
theorem reconcile_catches_controller_failures {R : Type} (cb : ControllerBehavior R)
    (flag : Bool) (md : Metadata) :
    (∀ e, cb.tokenizeResp = .error e →
        applyHeuristicsAndMove cb flag md = ⟨[.tokenize], none, some e⟩)
    ∧ (∀ toks e, cb.tokenizeResp = .ok toks → cb.lookupResp = .error e →
        applyHeuristicsAndMove cb flag md = ⟨[.tokenize, .lookup], none, some e⟩)
    ∧ (∀ e, cb.moveResp = .error e →
        (applyHeuristicsAndMove cb flag md).ret = none
        ∧ ((applyHeuristicsAndMove cb flag md).caught = some e
            ∨ ∀ o n, ControllerCall.move o n ∉ (applyHeuristicsAndMove cb flag md).calls))
    ∧ (∀ toks layout, cb.tokenizeResp = .ok toks → cb.lookupResp = .ok layout →
        layout.found = true → layout.defaultInstance = some [] →
        applyHeuristicsAndMove cb flag md
          = ⟨[.tokenize, .lookup], none, some .indexOutOfRange⟩) := by
  refine ⟨?_, ?_, ?_, ?_⟩
  · intro e he
    simp [applyHeuristicsAndMove, he]
  · intro toks e ht hl
    simp [applyHeuristicsAndMove, ht, hl]
  · intro e hm
    unfold applyHeuristicsAndMove
    split
    · exact ⟨rfl, .inr (by simp)⟩
    · split
      · exact ⟨rfl, .inr (by simp)⟩
      · split
        · exact ⟨rfl, .inr (by simp)⟩
        · split
          · exact ⟨rfl, .inr (by simp)⟩
          · split
            · exact ⟨rfl, .inr (by simp)⟩
            · split
              · exact ⟨rfl, .inr (by simp)⟩
              · split
                · exact ⟨rfl, .inr (by simp)⟩
                · split
                  · split
                    · rename_i e1 heq
                      rw [hm] at heq
                      injection heq with he
                      subst he
                      exact ⟨rfl, .inl rfl⟩
                    · rename_i r heq
                      rw [hm] at heq
                      cases heq
                  · exact ⟨rfl, .inr (by simp)⟩
  · intro toks layout h1 h2 h3 h4
    have hx : extractCurrent layout = .error .indexOutOfRange := by
      simp [extractCurrent, h4]
    unfold applyHeuristicsAndMove
    rw [h1, h2]
    simp only [h3, Bool.true_eq_false, if_false]
    simp [hx]

/-- The controller behavior of an unreachable tokenizer endpoint. -/
def cbTokFail : ControllerBehavior ℕ := ⟨.error (.network "down"), .ok ⟨false, none⟩, .ok 0⟩

/-- Witness for `reconcile_catches_controller_failures`: a failing
tokenize call is caught and the invocation returns normally. -/
theorem reconcile_catches_controller_failures_witness :
    applyHeuristicsAndMove cbTokFail false ⟨10, 0, 0⟩
      = ⟨[.tokenize], none, some (.network "down")⟩ :=
  (reconcile_catches_controller_failures cbTokFail false ⟨10, 0, 0⟩).1
    (.network "down") rfl

/-! ### C10: found but no usable current tier -/

/-- C10: when the lookup succeeds with `found` truthy but the
`"lmcache_default_instance"` field is missing, empty, or has `None` as
its first element, the reconciler issues no move call (the wire trace is
exactly tokenize then lookup) and the invocation returns `None` to the
caller without raising. -/
theorem reconcile_no_usable_tier_no_move {R : Type} (cb : ControllerBehavior R)
    (flag : Bool) (md : Metadata) (toks : List ℤ) (layout : LookupResponse)
    (h1 : cb.tokenizeResp = .ok toks)
    (h2 : cb.lookupResp = .ok layout)
    (h3 : layout.found = true)
    (h4 : layout.defaultInstance = none ∨ layout.defaultInstance = some []
        ∨ ∃ rest, layout.defaultInstance = some (none :: rest)) :
    (applyHeuristicsAndMove cb flag md).calls = [.tokenize, .lookup]
    ∧ (applyHeuristicsAndMove cb flag md).ret = none := by
  have hx : extractCurrent layout = .ok none
      ∨ extractCurrent layout = .error .indexOutOfRange := by
    rcases h4 with h4 | h4 | ⟨rest, h4⟩
    · exact .inl (by simp [extractCurrent, h4])
    · exact .inr (by simp [extractCurrent, h4])
    · exact .inl (by simp [extractCurrent, h4])
  unfold applyHeuristicsAndMove
  rw [h1, h2]
  simp only [h3, Bool.true_eq_false, if_false]
  rcases hx with hx | hx
  · simp only [hx]
    cases hc : compute_ttl md 3600 0 (7 * 24 * 3600) 0.25 with
    | none => simp [hc]
    | some tval =>
      simp only [hc]
      cases hs : select_backend flag md with
      | none => simp [hs]
      | some pref => simp [hs]
  · simp [hx]

/-- The controller behavior of a found entry with an empty
`"lmcache_default_instance"` list. -/
def cbEmptyInstance : ControllerBehavior ℕ := ⟨.ok [1], .ok ⟨true, some []⟩, .ok 0⟩

/-- Witness for `reconcile_no_usable_tier_no_move` at the empty-list
behavior. -/
theorem reconcile_no_usable_tier_no_move_witness :
    (applyHeuristicsAndMove cbEmptyInstance false ⟨10, 0, 0⟩).calls
        = [.tokenize, .lookup]
    ∧ (applyHeuristicsAndMove cbEmptyInstance false ⟨10, 0, 0⟩).ret = none :=
  reconcile_no_usable_tier_no_move cbEmptyInstance false ⟨10, 0, 0⟩ [1]
    ⟨true, some []⟩ rfl rfl rfl (.inr (.inl rfl))
